import Mathlib

/-!
Shallow embedding of `telegram_agent.py`: the sectioned prompt-config
loader, the user-identifier derivation, the users-table upsert and the
per-message handler pipeline, together with theorems settling the
specification claims C1-C10.
-/

set_option autoImplicit false

namespace TelegramAgent

/-- Split a character list at every occurrence of `c`, mirroring Python
`str.split(sep)` for a one-character separator: the result is always
non-empty and empty fragments are kept. -/
def splitOnChar (c : Char) : List Char → List (List Char)
  | [] => [[]]
  | a :: as =>
    if a = c then [] :: splitOnChar c as
    else
      match splitOnChar c as with
      | [] => [[a]]
      | h :: t => (a :: h) :: t

/-- Split at the first occurrence of `c`, mirroring the two-way unpacking
of Python `str.split(sep, 1)`: `none` when `c` is absent, which is the
case where the Python unpacking raises ValueError. -/
def splitOnceChar (c : Char) : List Char → Option (List Char × List Char)
  | [] => none
  | a :: as =>
    if a = c then some ([], as)
    else
      match splitOnceChar c as with
      | none => none
      | some (h, t) => some (a :: h, t)

/-- Python `str.strip()` on a character list. -/
def trimL (l : List Char) : List Char :=
  ((l.dropWhile Char.isWhitespace).reverse.dropWhile Char.isWhitespace).reverse

/-- Python `str.strip()` on a string. -/
def stripS (s : String) : String := (trimL s.toList).asString

/-- Leading-pattern test on character lists (Python `str.startswith`):
`startsWithL pat l` is true when `pat` is an initial segment of `l`. -/
def startsWithL : List Char → List Char → Bool
  | [], _ => true
  | _ :: _, [] => false
  | b :: bs, a :: as => (a == b) && startsWithL bs as

/-- Python substring membership `needle in hay` on character lists. -/
def containsSub (needle : List Char) : List Char → Bool
  | [] => needle.isEmpty
  | a :: as => startsWithL needle (a :: as) || containsSub needle as

/-- Python `str.lower()` as a character-wise map, as used by the
suppression check of the handler. -/
def lowerL (l : List Char) : List Char := l.map Char.toLower

/-- Result triple of `load_prompt_config_from_txt`: the system prompt,
the persona dictionary and the default persona. The dictionary is an
insertion-ordered association list with Python-dict update semantics. -/
structure PromptConfig where
  system_prompt : List Char
  personas : List (List Char × List Char)
  default_persona : List Char
deriving DecidableEq, Repr

/-- Python dict read `personas.get(k)`: the unique binding of `k`. -/
def dictGet : List (List Char × List Char) → List Char → Option (List Char)
  | [], _ => none
  | p :: ps, k => if p.1 = k then some p.2 else dictGet ps k

/-- Python dict write `personas[k] = v`: replace the binding in place
when the key exists, append a new binding otherwise. -/
def dictSet (m : List (List Char × List Char)) (k v : List Char) : List (List Char × List Char) :=
  if (dictGet m k).isSome then
    m.map (fun p => if p.1 = k then (k, v) else p)
  else m ++ [(k, v)]

/-- One iteration of the section loop of `load_prompt_config_from_txt`
(`telegram_agent.py` lines 39-48): split the fragment at the first `]`
into header and body, trim the body, and update the field selected by
the header; `none` models the ValueError raised by the two-way
unpacking when the fragment has no `]`. -/
def applySection (st : PromptConfig) (sec : List Char) : Option PromptConfig :=
  match splitOnceChar ']' sec with
  | none => none
  | some (header, rawBody) =>
    let body := trimL rawBody
    if header = "system_prompt".toList then some { st with system_prompt := body }
    else if startsWithL "persona:".toList header then
      some { st with personas := dictSet st.personas (header.drop 8) body }
    else if header = "default_persona".toList then some { st with default_persona := body }
    else some st

/-- The section loop over all fragments, in order. -/
def parseSections (st : PromptConfig) : List (List Char) → Option PromptConfig
  | [] => some st
  | s :: ss =>
    match applySection st s with
    | none => none
    | some st' => parseSections st' ss

/-- Body of `load_prompt_config_from_txt` (lines 34-50) applied to file
content already read into memory: split on `[`, drop the fragment
before the first `[`, and run the section loop from empty values. The
missing-file branch (lines 31-32) returns empty values without reading
content and is outside this function. -/
def load_prompt_config_from_txt (content : List Char) : Option PromptConfig :=
  parseSections ⟨[], [], []⟩ ((splitOnChar '[' content).drop 1)

/-- The header of a section fragment: the part before its first `]`. -/
def headerOf (sec : List Char) : Option (List Char) :=
  (splitOnceChar ']' sec).map Prod.fst

/-- Sender-profile fields of the telethon sender object that the handler
reads. -/
structure Sender where
  username : Option String
  first_name : String
  last_name : Option String

/-- Identifier derivation of `handle_new_message` (lines 147-150): the
username when truthy (present and non-empty), else the first name, a
space and the last name (empty when missing), the whole stripped. -/
def deriveUserId (s : Sender) : String :=
  if (s.username.getD "") ≠ "" then s.username.getD ""
  else stripS (s.first_name ++ " " ++ s.last_name.getD "")

/-- Users-table read `SELECT blocked FROM users WHERE user_id = k`:
`user_id` is the primary key, so at most one row matches. -/
def usersGet : List (String × Bool) → String → Option Bool
  | [], _ => none
  | p :: ps, k => if p.1 = k then some p.2 else usersGet ps k

/-- The upsert at line 166, `INSERT INTO users (user_id, blocked) VALUES
(uid, false) ON CONFLICT (user_id) DO NOTHING`: insert `blocked=false`
when the key is absent, leave the table untouched otherwise. -/
def upsert_user (users : List (String × Bool)) (uid : String) : List (String × Bool) :=
  if (usersGet users uid).isSome then users else users ++ [(uid, false)]

/-- Python `personas.get(uid, default_persona)` at line 187, over the
persona table as handed to the handler. -/
def personasGet : List (String × String) → String → Option String
  | [], _ => none
  | p :: ps, k => if p.1 = k then some p.2 else personasGet ps k

/-- The suppression test at line 200, `"database" not in str(e).lower()`:
`suppressDiag e = true` means the diagnostic out-row is suppressed. -/
def suppressDiag (e : String) : Bool :=
  containsSub ("database".toList) (lowerL e.toList)

/-- The model handle built at line 133,
`genai.GenerativeModel(GEMINI_MODEL, system_instruction=system_prompt)`:
the system prompt is bound into the handle once, at initialization. -/
structure GenerativeModel where
  model_name : String
  system_instruction : String
deriving DecidableEq, Repr

/-- One row of the `messages` table as written by `log_to_db`; the
serial `id` and the wall-clock `timestamp`, which no claim mentions,
are elided. -/
structure Row where
  direction : String
  user_id : String
  text : String
  profile_pic_path : Option String
deriving DecidableEq, Repr

/-- Observable pipeline effects, for ordering statements: an inbound row
appended, the model invoked, an outbound row appended, a transport send
delivered. -/
inductive Ev where
  | evLogIn
  | evModelCall
  | evLogOut
  | evSend
deriving DecidableEq, Repr

/-- Outcomes of the external calls made during one run of
`handle_new_message`: each fallible call either succeeds or raises with
the given exception text. `log_to_db` swallows its own store errors
(lines 127-128), so its outcomes are plain booleans: row written, or
row lost without an exception. -/
structure Scenario where
  users : List (String × Bool)
  connErr : Option String
  upsertErr : Option String
  avatar : Except String Bool
  logInOk : Bool
  model : Except String String
  respondErr : Option String
  logOutOk : Bool
  errLogOk : Bool
  apologyErr : Option String

/-- Observable result of one handler run: message rows appended in
order, the users table afterwards, the texts delivered through the
transport in order, the prompt submitted to the model when the call was
reached, the effect trace, and the exception escaping the handler, if
any. -/
structure HResult where
  rows : List Row
  users : List (String × Bool)
  sent : List String
  promptSubmitted : Option String
  trace : List Ev
  escaped : Option String
deriving DecidableEq, Repr

/-- The relative avatar path computed at lines 177-180: when the
transport produced a photo, `profile_pics/<uid>.jpg` with separators
normalized, else Python `None`. -/
def profile_pic_rel_path (uid : String) (downloaded : Bool) : Option String :=
  if downloaded then some ("profile_pics/" ++ uid ++ ".jpg") else none

/-- The fixed user-facing apology of line 202. -/
def apologyText : String := "Sorry, something went wrong while processing your request."

/-- The diagnostic composed at line 197. -/
def errText (e : String) : String := "An error occurred in handle_new_message: " ++ e

/-- The `except` block of `handle_new_message` (lines 196-202). `pic` is
`some p` when the local `profile_pic_rel_path` is bound to `p` at the
time of the failure and `none` when it is still unbound, in which case
evaluating the arguments of the `log_to_db` call raises
UnboundLocalError out of the handler. -/
def exceptPath (uid : String) (pic : Option (Option String)) (e : String) (sc : Scenario)
    (users : List (String × Bool)) (rows : List Row) (promptSubmitted : Option String)
    (trace : List Ev) : HResult :=
  if suppressDiag e then
    match sc.apologyErr with
    | some e2 => ⟨rows, users, [], promptSubmitted, trace, some e2⟩
    | none => ⟨rows, users, [apologyText], promptSubmitted, trace ++ [Ev.evSend], none⟩
  else
    match pic with
    | none => ⟨rows, users, [], promptSubmitted, trace, some "UnboundLocalError: profile_pic_rel_path"⟩
    | some p =>
      let rows' := if sc.errLogOk then rows ++ [⟨"out", uid, errText e, p⟩] else rows
      let trace' := if sc.errLogOk then trace ++ [Ev.evLogOut] else trace
      match sc.apologyErr with
      | some e2 => ⟨rows', users, [], promptSubmitted, trace', some e2⟩
      | none => ⟨rows', users, [apologyText], promptSubmitted, trace' ++ [Ev.evSend], none⟩

/-- The handler `handle_new_message` (lines 143-202) as a function of
the loaded persona table, the sender, the message text, the event flags
`event.is_private` and `event.message.out`, and the outcomes of the
external calls. The `typing` presence context (line 186) has no effect
observable by any claim and is elided. -/
def handle_new_message (personas : List (String × String)) (default_persona : String)
    (sender : Sender) (message_text : String) (is_private is_out : Bool)
    (sc : Scenario) : HResult :=
  if is_private && !is_out then
    let uid := deriveUserId sender
    match sc.connErr with
    | some e => exceptPath uid none e sc sc.users [] none []
    | none =>
      if (usersGet sc.users uid).getD false then
        ⟨[], sc.users, [], none, [], none⟩
      else
        match sc.upsertErr with
        | some e => exceptPath uid none e sc sc.users [] none []
        | none =>
          let users' := upsert_user sc.users uid
          match sc.avatar with
          | .error e => exceptPath uid none e sc users' [] none []
          | .ok downloaded =>
            let pic : Option String := profile_pic_rel_path uid downloaded
            let rows1 : List Row := if sc.logInOk then [⟨"in", uid, message_text, pic⟩] else []
            let tr1 : List Ev := if sc.logInOk then [Ev.evLogIn] else []
            let prompt := (personasGet personas uid).getD default_persona ++ "\n\n" ++ message_text
            match sc.model with
            | .error e =>
              exceptPath uid (some pic) e sc users' rows1 (some prompt) (tr1 ++ [Ev.evModelCall])
            | .ok resp =>
              match sc.respondErr with
              | some e =>
                exceptPath uid (some pic) e sc users' rows1 (some prompt) (tr1 ++ [Ev.evModelCall])
              | none =>
                ⟨rows1 ++ (if sc.logOutOk then [⟨"out", uid, resp, pic⟩] else []),
                 users', [resp], some prompt,
                 (tr1 ++ [Ev.evModelCall, Ev.evSend]) ++ (if sc.logOutOk then [Ev.evLogOut] else []),
                 none⟩
  else ⟨[], sc.users, [], none, [], none⟩

/-- Index of the first occurrence of an effect in a trace (length of the
trace when absent), used to state ordering properties. -/
def idxOf (x : Ev) : List Ev → Nat
  | [] => 0
  | a :: as => if a = x then 0 else idxOf x as + 1

/-! ## Helper lemmas -/

theorem usersGet_append_self (users : List (String × Bool)) (uid : String) (b : Bool)
    (h : usersGet users uid = none) : usersGet (users ++ [(uid, b)]) uid = some b := by
  induction users with
  | nil => simp [usersGet]
  | cons p ps ih =>
    by_cases hp : p.1 = uid
    · simp [usersGet, hp] at h
    · simp only [List.cons_append, usersGet, hp, if_false] at h ⊢
      exact ih h

/-! ## Claims about identifier derivation and the users table -/

/-- Claim C6: the derived user identifier equals the username when it is
non-empty, and otherwise equals first name, a space and the last name
(empty when missing), trimmed of surrounding whitespace; the derivation
is a pure function, hence deterministic. -/
theorem claim_C6 (s : Sender) :
    (∀ u : String, s.username = some u → u ≠ "" → deriveUserId s = u) ∧
    ((s.username = none ∨ s.username = some "") →
      deriveUserId s = stripS (s.first_name ++ " " ++ s.last_name.getD "")) := by
  constructor
  · intro u hu hne
    simp [deriveUserId, hu, hne]
  · rintro (h | h) <;> simp [deriveUserId, h]

/-- Claim C6, instantiated at the three examples of the specification. -/
theorem claim_C6_witness :
    deriveUserId ⟨none, "Ada", some "Lovelace"⟩ = "Ada Lovelace" ∧
    deriveUserId ⟨some "ada99", "Ada", some "Lovelace"⟩ = "ada99" ∧
    deriveUserId ⟨none, "Ada", none⟩ = "Ada" := by
  refine ⟨?_, ?_, ?_⟩
  · exact ((claim_C6 ⟨none, "Ada", some "Lovelace"⟩).2 (Or.inl rfl)).trans (by decide)
  · exact (claim_C6 ⟨some "ada99", "Ada", some "Lovelace"⟩).1 "ada99" rfl (by decide)
  · exact ((claim_C6 ⟨none, "Ada", none⟩).2 (Or.inl rfl)).trans (by decide)

/-- Claim C8: the upsert inserts a row with `blocked=false` when the
user is absent and leaves the table unchanged when the user exists, so
it never changes an existing blocked flag; iterating it over any number
of subsequent messages still leaves the table unchanged. -/
theorem claim_C8 (users : List (String × Bool)) (uid : String) :
    (usersGet users uid = none →
      upsert_user users uid = users ++ [(uid, false)] ∧
      usersGet (upsert_user users uid) uid = some false) ∧
    (∀ b : Bool, usersGet users uid = some b → upsert_user users uid = users) ∧
    (∀ (n : Nat) (b : Bool), usersGet users uid = some b →
      (fun u => upsert_user u uid)^[n] users = users) := by
  refine ⟨?_, ?_, ?_⟩
  · intro h
    have he : upsert_user users uid = users ++ [(uid, false)] := by
      simp [upsert_user, h]
    exact ⟨he, by rw [he]; exact usersGet_append_self users uid false h⟩
  · intro b h
    simp [upsert_user, h]
  · intro n b h
    induction n with
    | zero => rfl
    | succ k ih =>
      rw [Function.iterate_succ_apply, show upsert_user users uid = users by simp [upsert_user, h]]
      exact ih

/-- Claim C8, instantiated: inserting a fresh user and upserting an
already-blocked user. -/
theorem claim_C8_witness :
    upsert_user [] "bob" = [("bob", false)] ∧
    upsert_user [("eve", true)] "eve" = [("eve", true)] ∧
    (fun u => upsert_user u "eve")^[3] [("eve", true)] = [("eve", true)] := by
  refine ⟨?_, ?_, ?_⟩
  · exact ((claim_C8 [] "bob").1 rfl).1
  · exact (claim_C8 [("eve", true)] "eve").2.1 true rfl
  · exact (claim_C8 [("eve", true)] "eve").2.2 3 true rfl

/-- Claim C5: an inbound private message from a sender whose derived
identifier is blocked terminates after the block check: no message rows,
the users table untouched, nothing sent, nothing escaping. -/
theorem claim_C5 (personas : List (String × String)) (default_persona : String)
    (sender : Sender) (message_text : String) (users : List (String × Bool))
    (upsertErr : Option String) (avatar : Except String Bool) (logInOk : Bool)
    (model : Except String String) (respondErr : Option String) (logOutOk errLogOk : Bool)
    (apologyErr : Option String)
    (hb : usersGet users (deriveUserId sender) = some true) :
    handle_new_message personas default_persona sender message_text true false
        ⟨users, none, upsertErr, avatar, logInOk, model, respondErr, logOutOk, errLogOk, apologyErr⟩ =
      ⟨[], users, [], none, [], none⟩ := by
  simp [handle_new_message, hb]

/-- Claim C5, instantiated at a blocked sender. -/
theorem claim_C5_witness :
    handle_new_message [] "D" ⟨some "eve", "E", none⟩ "hi" true false
        ⟨[("eve", true)], none, none, Except.ok true, true, Except.ok "x", none, true, true, none⟩ =
      ⟨[], [("eve", true)], [], none, [], none⟩ :=
  claim_C5 [] "D" ⟨some "eve", "E", none⟩ "hi" [("eve", true)] none (Except.ok true) true
    (Except.ok "x") none true true none (by decide)

/-! ## Claims about the per-message pipeline -/

theorem exceptPath_promptSubmitted (uid : String) (pic : Option (Option String)) (e : String)
    (sc : Scenario) (users : List (String × Bool)) (rows : List Row)
    (ps : Option String) (tr : List Ev) :
    (exceptPath uid pic e sc users rows ps tr).promptSubmitted = ps := by
  unfold exceptPath
  split
  · cases sc.apologyErr <;> rfl
  · cases pic with
    | none => rfl
    | some p => cases sc.apologyErr <;> rfl

/-- Claim C1, as stated, is false on the code: in this run the pipeline
reaches the model call (the trace records the invocation) and the model
fails with a text containing the word `database`, so the diagnostic
out-row is suppressed and no `out` row at all follows the `in` row. -/
theorem claim_C1_counterexample :
    (handle_new_message [] "D" ⟨some "eve", "E", none⟩ "hi" true false
        ⟨[], none, none, Except.ok false, true, Except.error "database timeout", none, true, true,
          none⟩).trace = [Ev.evLogIn, Ev.evModelCall, Ev.evSend] ∧
    (handle_new_message [] "D" ⟨some "eve", "E", none⟩ "hi" true false
        ⟨[], none, none, Except.ok false, true, Except.error "database timeout", none, true, true,
          none⟩).rows = [⟨"in", "eve", "hi", none⟩] := ⟨rfl, rfl⟩

/-- Claim C1 amended: with the store appends succeeding, a non-blocked
inbound private message produces exactly one `in` row, and when the
pipeline reaches the model call exactly one `out` row follows — the
reply text on success, the composed diagnostic on failure — except that
a failure whose exception text contains `database` (case-insensitively)
suppresses the `out` row; every row of the exchange carries the same
`profile_pic_path` value. -/
theorem claim_C1_amended (personas : List (String × String)) (default_persona : String)
    (sender : Sender) (message_text : String) (users : List (String × Bool)) (d : Bool)
    (model : Except String String) (respondErr : Option String) (apologyErr : Option String)
    (hb : (usersGet users (deriveUserId sender)).getD false = false) :
    (handle_new_message personas default_persona sender message_text true false
        ⟨users, none, none, Except.ok d, true, model, respondErr, true, true, apologyErr⟩).rows =
      ⟨"in", deriveUserId sender, message_text, profile_pic_rel_path (deriveUserId sender) d⟩ ::
      (match model, respondErr with
        | Except.ok resp, none =>
          [⟨"out", deriveUserId sender, resp, profile_pic_rel_path (deriveUserId sender) d⟩]
        | Except.ok _, some e =>
          if suppressDiag e then []
          else [⟨"out", deriveUserId sender, errText e,
                  profile_pic_rel_path (deriveUserId sender) d⟩]
        | Except.error e, _ =>
          if suppressDiag e then []
          else [⟨"out", deriveUserId sender, errText e,
                  profile_pic_rel_path (deriveUserId sender) d⟩]) := by
  cases model with
  | ok resp =>
    cases respondErr with
    | none => simp [handle_new_message, hb]
    | some e =>
      cases apologyErr <;> by_cases hs : suppressDiag e <;>
        simp [handle_new_message, exceptPath, hb, hs]
  | error e =>
    cases apologyErr <;> by_cases hs : suppressDiag e <;>
      simp [handle_new_message, exceptPath, hb, hs]

/-- Claim C1 amended, instantiated at a successful exchange. -/
theorem claim_C1_witness :
    (handle_new_message [] "D" ⟨some "bob", "B", none⟩ "hello" true false
        ⟨[], none, none, Except.ok true, true, Except.ok "hi", none, true, true, none⟩).rows =
      [⟨"in", "bob", "hello", some "profile_pics/bob.jpg"⟩,
       ⟨"out", "bob", "hi", some "profile_pics/bob.jpg"⟩] :=
  (claim_C1_amended [] "D" ⟨some "bob", "B", none⟩ "hello" [] true (Except.ok "hi") none none
    rfl).trans (by decide)

/-- Claim C2 is contradicted by the code: here the block-check store
call fails with text lacking the word `database`, so the `except` block
evaluates the still-unbound local `profile_pic_rel_path` when building
the diagnostic row; UnboundLocalError escapes the handler and the fixed
apology is never sent. -/
theorem claim_C2_code_bug :
    (handle_new_message [] "D" ⟨some "mallory", "M", none⟩ "hi" true false
        ⟨[], some "connection refused", none, Except.ok false, true, Except.ok "x", none, true,
          true, none⟩).escaped = some "UnboundLocalError: profile_pic_rel_path" ∧
    (handle_new_message [] "D" ⟨some "mallory", "M", none⟩ "hi" true false
        ⟨[], some "connection refused", none, Except.ok false, true, Except.ok "x", none, true,
          true, none⟩).sent = [] := ⟨rfl, rfl⟩

/-- Claim C3, as stated, is false on the code: in a fully successful
run the trace is inbound-log, model-call, reply-send, outbound-log, so
the outbound row is not logged before the reply is sent. -/
theorem claim_C3_counterexample :
    (handle_new_message [("bob", "P")] "D" ⟨some "bob", "B", none⟩ "hello" true false
        ⟨[], none, none, Except.ok true, true, Except.ok "reply", none, true, true, none⟩).trace =
      [Ev.evLogIn, Ev.evModelCall, Ev.evSend, Ev.evLogOut] ∧
    ¬ idxOf Ev.evLogOut [Ev.evLogIn, Ev.evModelCall, Ev.evSend, Ev.evLogOut] <
        idxOf Ev.evSend [Ev.evLogIn, Ev.evModelCall, Ev.evSend, Ev.evLogOut] :=
  ⟨rfl, by decide⟩

/-- Claim C3 amended: within one successful handling of a triggering
event the effects occur in the strict order inbound-log, model-call,
reply-send, outbound-log — the reply is sent before the outbound row is
logged. -/
theorem claim_C3_amended (personas : List (String × String)) (default_persona : String)
    (sender : Sender) (message_text : String) (users : List (String × Bool)) (d : Bool)
    (resp : String)
    (hb : (usersGet users (deriveUserId sender)).getD false = false) :
    (handle_new_message personas default_persona sender message_text true false
        ⟨users, none, none, Except.ok d, true, Except.ok resp, none, true, true, none⟩).trace =
      [Ev.evLogIn, Ev.evModelCall, Ev.evSend, Ev.evLogOut] := by
  simp [handle_new_message, hb]

/-- Claim C3 amended, instantiated at a successful exchange. -/
theorem claim_C3_amended_witness :
    (handle_new_message [] "D" ⟨some "zoe", "Z", none⟩ "hey" true false
        ⟨[], none, none, Except.ok false, true, Except.ok "yo", none, true, true, none⟩).trace =
      [Ev.evLogIn, Ev.evModelCall, Ev.evSend, Ev.evLogOut] :=
  claim_C3_amended [] "D" ⟨some "zoe", "Z", none⟩ "hey" [] false "yo" rfl

/-- Claim C7: whenever the model call is reached, the submitted prompt
is exactly the persona configured for the derived identifier — or the
default persona when none is — concatenated with a blank line and the
message text; and the system prompt is a field bound into the model
handle at initialization, not an input of the per-call prompt. -/
theorem claim_C7 (personas : List (String × String)) (default_persona : String)
    (sender : Sender) (message_text : String) (users : List (String × Bool)) (d : Bool)
    (logInOk : Bool) (model : Except String String) (respondErr : Option String)
    (logOutOk errLogOk : Bool) (apologyErr : Option String)
    (hb : (usersGet users (deriveUserId sender)).getD false = false) :
    (handle_new_message personas default_persona sender message_text true false
        ⟨users, none, none, Except.ok d, logInOk, model, respondErr, logOutOk, errLogOk,
          apologyErr⟩).promptSubmitted =
      some ((personasGet personas (deriveUserId sender)).getD default_persona ++ "\n\n" ++
        message_text) ∧
    (∀ name sys : String, (GenerativeModel.mk name sys).system_instruction = sys) := by
  refine ⟨?_, fun name sys => rfl⟩
  cases model with
  | ok resp =>
    cases respondErr with
    | none => simp [handle_new_message, hb]
    | some e => simp [handle_new_message, hb, exceptPath_promptSubmitted]
  | error e => simp [handle_new_message, hb, exceptPath_promptSubmitted]

/-- Claim C7, instantiated: a configured persona and the default-persona
fallback. -/
theorem claim_C7_witness :
    (handle_new_message [("bob", "BePolite")] "Dflt" ⟨some "bob", "B", none⟩ "hello" true false
        ⟨[], none, none, Except.ok true, true, Except.ok "hi", none, true, true, none⟩).promptSubmitted =
      some "BePolite\n\nhello" ∧
    (handle_new_message [("bob", "BePolite")] "Dflt" ⟨some "ann", "A", none⟩ "hello" true false
        ⟨[], none, none, Except.ok true, true, Except.ok "hi", none, true, true, none⟩).promptSubmitted =
      some "Dflt\n\nhello" := by
  constructor
  · exact ((claim_C7 [("bob", "BePolite")] "Dflt" ⟨some "bob", "B", none⟩ "hello" [] true true
      (Except.ok "hi") none true true none rfl).1).trans (by decide)
  · exact ((claim_C7 [("bob", "BePolite")] "Dflt" ⟨some "ann", "A", none⟩ "hello" [] true true
      (Except.ok "hi") none true true none rfl).1).trans (by decide)

/-- Claim C10: the suppression check lowercases the exception text
before the `database` substring test, so a failure text containing the
word in any letter case yields no outbound diagnostic row while the
fixed apology is still sent. -/
theorem claim_C10 (personas : List (String × String)) (default_persona : String)
    (sender : Sender) (message_text : String) (users : List (String × Bool)) (d : Bool)
    (e : String) (logInOk logOutOk : Bool)
    (hb : (usersGet users (deriveUserId sender)).getD false = false)
    (hs : suppressDiag e = true) :
    (handle_new_message personas default_persona sender message_text true false
        ⟨users, none, none, Except.ok d, logInOk, Except.error e, none, logOutOk, true, none⟩).rows =
      (if logInOk then
        [⟨"in", deriveUserId sender, message_text, profile_pic_rel_path (deriveUserId sender) d⟩]
      else []) ∧
    (handle_new_message personas default_persona sender message_text true false
        ⟨users, none, none, Except.ok d, logInOk, Except.error e, none, logOutOk, true,
          none⟩).sent = [apologyText] ∧
    suppressDiag "Database is down" = true ∧
    suppressDiag "API DATABASE FAILURE" = true ∧
    suppressDiag "timeout" = false := by
  refine ⟨?_, ?_, by decide, by decide, by decide⟩ <;>
    cases logInOk <;> simp [handle_new_message, exceptPath, hb, hs]

/-- Claim C10, instantiated at a mixed-case `Database` failure. -/
theorem claim_C10_witness :
    (handle_new_message [] "D" ⟨some "eve", "E", none⟩ "hi" true false
        ⟨[], none, none, Except.ok false, true, Except.error "Database is down", none, true, true,
          none⟩).rows = [⟨"in", "eve", "hi", none⟩] ∧
    (handle_new_message [] "D" ⟨some "eve", "E", none⟩ "hi" true false
        ⟨[], none, none, Except.ok false, true, Except.error "Database is down", none, true, true,
          none⟩).sent = [apologyText] := by
  have h := claim_C10 [] "D" ⟨some "eve", "E", none⟩ "hi" [] false "Database is down" true true
    rfl (by decide)
  exact ⟨(h.1).trans (by decide), h.2.1⟩

/-! ## Lemmas about the section splitter and the persona dictionary -/

theorem splitOnChar_cons (c a : Char) (as : List Char) :
    splitOnChar c (a :: as) =
      if a = c then [] :: splitOnChar c as
      else
        match splitOnChar c as with
        | [] => [[a]]
        | h :: t => (a :: h) :: t := rfl

theorem splitOnChar_ne_nil (c : Char) (l : List Char) : splitOnChar c l ≠ [] := by
  induction l with
  | nil => simp [splitOnChar]
  | cons a as ih =>
    unfold splitOnChar
    split
    · exact List.cons_ne_nil _ _
    · split
      · exact List.cons_ne_nil _ _
      · exact List.cons_ne_nil _ _

theorem modifyHead_drop_one {α : Type} (f : α → α) (l : List α) :
    (List.modifyHead f l).drop 1 = l.drop 1 := by
  cases l <;> rfl

theorem splitOnChar_append_left (c : Char) (pre rest : List Char) (h : c ∉ pre) :
    splitOnChar c (pre ++ rest) = List.modifyHead (fun x => pre ++ x) (splitOnChar c rest) := by
  induction pre with
  | nil =>
    rw [List.nil_append]
    cases hr : splitOnChar c rest with
    | nil => exact absurd hr (splitOnChar_ne_nil c rest)
    | cons x xs => simp [List.modifyHead]
  | cons a pre ih =>
    have hac : ¬ a = c := fun hac => h (by simp [hac])
    have hpre : c ∉ pre := fun hc => h (List.mem_cons_of_mem a hc)
    cases hr : splitOnChar c rest with
    | nil => exact absurd hr (splitOnChar_ne_nil c rest)
    | cons x xs =>
      rw [List.cons_append, splitOnChar_cons, if_neg hac, ih hpre, hr]
      simp [List.modifyHead]

theorem splitOnceChar_eq_none_iff (c : Char) (l : List Char) :
    splitOnceChar c l = none ↔ c ∉ l := by
  induction l with
  | nil => simp [splitOnceChar]
  | cons a as ih =>
    by_cases hac : a = c
    · subst hac
      simp [splitOnceChar]
    · unfold splitOnceChar
      rw [if_neg hac]
      cases hr : splitOnceChar c as with
      | none =>
        have has : c ∉ as := ih.mp hr
        constructor
        · intro _ hm
          rcases List.mem_cons.mp hm with h1 | h2
          · exact hac h1.symm
          · exact has h2
        · intro _
          rfl
      | some p =>
        obtain ⟨x, y⟩ := p
        have has : c ∈ as := by
          by_contra hnotin
          rw [ih.mpr hnotin] at hr
          cases hr
        constructor
        · intro hcontra
          cases hcontra
        · intro hm
          exact absurd (List.mem_cons_of_mem a has) hm

theorem splitOnceChar_append_cons (c : Char) (xs ys : List Char) (h : c ∉ xs) :
    splitOnceChar c (xs ++ c :: ys) = some (xs, ys) := by
  induction xs with
  | nil => simp [splitOnceChar]
  | cons a as ih =>
    have hac : ¬ a = c := fun hac => h (by simp [hac])
    have has : c ∉ as := fun hc => h (List.mem_cons_of_mem a hc)
    rw [List.cons_append]
    unfold splitOnceChar
    rw [if_neg hac, ih has]

theorem startsWithL_append_self (xs ys : List Char) : startsWithL xs (xs ++ ys) = true := by
  induction xs with
  | nil => rfl
  | cons a as ih => simp [startsWithL, ih]

theorem startsWithL_eq_append (l pat : List Char) (h : startsWithL pat l = true) :
    l = pat ++ l.drop pat.length := by
  induction pat generalizing l with
  | nil => simp
  | cons b bs ih =>
    cases l with
    | nil => simp [startsWithL] at h
    | cons a as =>
      simp only [startsWithL, Bool.and_eq_true, beq_iff_eq] at h
      obtain ⟨hab, hrest⟩ := h
      subst hab
      have hs := ih as hrest
      calc a :: as = a :: (bs ++ as.drop bs.length) := by rw [← hs]
        _ = (a :: bs) ++ (a :: as).drop (a :: bs).length := by simp

theorem dictGet_map_replace (m : List (List Char × List Char)) (k v : List Char)
    (h : (dictGet m k).isSome) :
    dictGet (m.map (fun p => if p.1 = k then (k, v) else p)) k = some v := by
  induction m with
  | nil => simp [dictGet] at h
  | cons p ps ih =>
    by_cases hp : p.1 = k
    · simp [dictGet, hp]
    · simp only [dictGet, hp, if_false] at h
      simp only [List.map_cons, dictGet, hp, if_false]
      exact ih h

theorem dictGet_append_self (m : List (List Char × List Char)) (k v : List Char)
    (h : dictGet m k = none) : dictGet (m ++ [(k, v)]) k = some v := by
  induction m with
  | nil => simp [dictGet]
  | cons p ps ih =>
    by_cases hp : p.1 = k
    · simp [dictGet, hp] at h
    · simp only [dictGet, hp, if_false] at h
      simp only [List.cons_append, dictGet, hp, if_false]
      exact ih h

theorem dictGet_dictSet_self (m : List (List Char × List Char)) (k v : List Char) :
    dictGet (dictSet m k v) k = some v := by
  unfold dictSet
  split
  · exact dictGet_map_replace m k v (by assumption)
  · refine dictGet_append_self m k v ?_
    rename_i hns
    exact Option.not_isSome_iff_eq_none.mp hns

theorem dictGet_map_replace_ne (m : List (List Char × List Char)) (k v k' : List Char)
    (h : k' ≠ k) :
    dictGet (m.map (fun p => if p.1 = k then (k, v) else p)) k' = dictGet m k' := by
  induction m with
  | nil => rfl
  | cons p ps ih =>
    by_cases hp : p.1 = k
    · have hk : ¬ k = k' := fun he => h he.symm
      have hp' : ¬ p.1 = k' := by rw [hp]; exact hk
      simp only [List.map_cons, hp, if_pos, dictGet, hk, if_false, hp']
      exact ih
    · simp only [List.map_cons, hp, if_false, dictGet]
      by_cases hpk : p.1 = k'
      · simp [hpk]
      · simp only [hpk, if_false]
        exact ih

theorem dictGet_append_ne (m : List (List Char × List Char)) (k v k' : List Char)
    (h : k' ≠ k) : dictGet (m ++ [(k, v)]) k' = dictGet m k' := by
  induction m with
  | nil =>
    have hk : ¬ k = k' := fun he => h he.symm
    simp [dictGet, hk]
  | cons p ps ih =>
    by_cases hp : p.1 = k'
    · simp [dictGet, hp]
    · simp only [List.cons_append, dictGet, hp, if_false]
      exact ih

theorem dictGet_dictSet_ne (m : List (List Char × List Char)) (k v k' : List Char)
    (h : k' ≠ k) : dictGet (dictSet m k v) k' = dictGet m k' := by
  unfold dictSet
  split
  · exact dictGet_map_replace_ne m k v k' h
  · exact dictGet_append_ne m k v k' h

/-! ## Lemmas about the section loop -/

theorem persona_header_ne_sys (u : List Char) :
    ("persona:".toList ++ u) ≠ "system_prompt".toList := by
  intro h
  have h2 : 'p' :: ("ersona:".toList ++ u) = 's' :: "ystem_prompt".toList := h
  have h3 := (List.cons.injEq _ _ _ _).mp h2
  exact absurd h3.1 (by decide)

theorem persona_header_ne_default (u : List Char) :
    ("persona:".toList ++ u) ≠ "default_persona".toList := by
  intro h
  have h2 : 'p' :: ("ersona:".toList ++ u) = 'd' :: "efault_persona".toList := h
  have h3 := (List.cons.injEq _ _ _ _).mp h2
  exact absurd h3.1 (by decide)

theorem persona_header_drop (u : List Char) : ("persona:".toList ++ u).drop 8 = u := by
  have hlen : ("persona:".toList).length = 8 := rfl
  rw [← hlen, List.drop_left]

theorem applySection_sys (st : PromptConfig) (b : List Char) :
    applySection st ("system_prompt".toList ++ ']' :: b) =
      some { st with system_prompt := trimL b } := by
  unfold applySection
  rw [splitOnceChar_append_cons ']' _ b (by decide)]
  rfl

theorem applySection_default (st : PromptConfig) (b : List Char) :
    applySection st ("default_persona".toList ++ ']' :: b) =
      some { st with default_persona := trimL b } := by
  unfold applySection
  rw [splitOnceChar_append_cons ']' _ b (by decide)]
  rfl

theorem applySection_persona (st : PromptConfig) (u b : List Char) (hu : ']' ∉ u) :
    applySection st ("persona:".toList ++ u ++ ']' :: b) =
      some { st with personas := dictSet st.personas u (trimL b) } := by
  have hnot : ']' ∉ "persona:".toList ++ u := by
    intro hmem
    rcases List.mem_append.mp hmem with h1 | h2
    · exact absurd h1 (by decide)
    · exact hu h2
  unfold applySection
  rw [splitOnceChar_append_cons ']' _ b hnot]
  dsimp only
  rw [if_neg (persona_header_ne_sys u)]
  simp only [startsWithL_append_self, eq_self_iff_true, if_true, persona_header_drop]

theorem headerOf_eq (s hd rb : List Char) (hsp : splitOnceChar ']' s = some (hd, rb)) :
    headerOf s = some hd := by
  rw [headerOf, hsp]
  rfl

theorem applySection_preserve_sys (st st' : PromptConfig) (s : List Char)
    (h : applySection st s = some st')
    (hh : headerOf s ≠ some ("system_prompt".toList)) :
    st'.system_prompt = st.system_prompt := by
  unfold applySection at h
  cases hsp : splitOnceChar ']' s with
  | none => rw [hsp] at h; cases h
  | some p =>
    obtain ⟨hd, rb⟩ := p
    rw [hsp] at h
    dsimp only at h
    have hhd : ¬ hd = "system_prompt".toList := fun he =>
      hh (by rw [headerOf_eq s hd rb hsp, he])
    rw [if_neg hhd] at h
    by_cases hsw : startsWithL "persona:".toList hd = true
    · rw [if_pos hsw] at h
      cases h
      rfl
    · rw [if_neg hsw] at h
      by_cases hdd : hd = "default_persona".toList
      · rw [if_pos hdd] at h
        cases h
        rfl
      · rw [if_neg hdd] at h
        cases h
        rfl

theorem applySection_preserve_default (st st' : PromptConfig) (s : List Char)
    (h : applySection st s = some st')
    (hh : headerOf s ≠ some ("default_persona".toList)) :
    st'.default_persona = st.default_persona := by
  unfold applySection at h
  cases hsp : splitOnceChar ']' s with
  | none => rw [hsp] at h; cases h
  | some p =>
    obtain ⟨hd, rb⟩ := p
    rw [hsp] at h
    dsimp only at h
    have hhd : ¬ hd = "default_persona".toList := fun he =>
      hh (by rw [headerOf_eq s hd rb hsp, he])
    by_cases hds : hd = "system_prompt".toList
    · rw [if_pos hds] at h
      cases h
      rfl
    · rw [if_neg hds] at h
      by_cases hsw : startsWithL "persona:".toList hd = true
      · rw [if_pos hsw] at h
        cases h
        rfl
      · rw [if_neg hsw, if_neg hhd] at h
        cases h
        rfl

theorem applySection_preserve_persona (st st' : PromptConfig) (s u : List Char)
    (h : applySection st s = some st')
    (hh : headerOf s ≠ some ("persona:".toList ++ u)) :
    dictGet st'.personas u = dictGet st.personas u := by
  unfold applySection at h
  cases hsp : splitOnceChar ']' s with
  | none => rw [hsp] at h; cases h
  | some p =>
    obtain ⟨hd, rb⟩ := p
    rw [hsp] at h
    dsimp only at h
    by_cases hds : hd = "system_prompt".toList
    · rw [if_pos hds] at h
      cases h
      rfl
    · rw [if_neg hds] at h
      by_cases hsw : startsWithL "persona:".toList hd = true
      · rw [if_pos hsw] at h
        have hd_eq : hd = "persona:".toList ++ hd.drop 8 := by
          have he := startsWithL_eq_append hd ("persona:".toList) hsw
          have hlen : ("persona:".toList).length = 8 := rfl
          rw [hlen] at he
          exact he
        have hne : u ≠ hd.drop 8 := by
          intro he2
          apply hh
          rw [headerOf_eq s hd rb hsp]
          exact congrArg some
            (hd_eq.trans (congrArg (fun t => "persona:".toList ++ t) he2.symm))
        cases h
        exact dictGet_dictSet_ne st.personas (hd.drop 8) (trimL rb) u hne
      · rw [if_neg hsw] at h
        by_cases hdd : hd = "default_persona".toList
        · rw [if_pos hdd] at h
          cases h
          rfl
        · rw [if_neg hdd] at h
          cases h
          rfl

theorem parseSections_cons (st : PromptConfig) (s : List Char) (ss : List (List Char)) :
    parseSections st (s :: ss) =
      match applySection st s with
      | none => none
      | some st' => parseSections st' ss := rfl

theorem parseSections_append (l r : List (List Char)) :
    ∀ st : PromptConfig,
      parseSections st (l ++ r) =
        match parseSections st l with
        | none => none
        | some st' => parseSections st' r := by
  induction l with
  | nil => intro st; rfl
  | cons s ss ih =>
    intro st
    rw [List.cons_append, parseSections_cons, parseSections_cons]
    cases applySection st s with
    | none => rfl
    | some st' => exact ih st'

theorem applySection_eq_none_iff (st : PromptConfig) (s : List Char) :
    applySection st s = none ↔ ']' ∉ s := by
  rw [← splitOnceChar_eq_none_iff ']' s]
  constructor
  · intro h
    cases hsp : splitOnceChar ']' s with
    | none => rfl
    | some p =>
      obtain ⟨hd, rb⟩ := p
      exfalso
      unfold applySection at h
      rw [hsp] at h
      dsimp only at h
      by_cases hds : hd = "system_prompt".toList
      · rw [if_pos hds] at h
        cases h
      · rw [if_neg hds] at h
        by_cases hsw : startsWithL "persona:".toList hd = true
        · rw [if_pos hsw] at h
          cases h
        · rw [if_neg hsw] at h
          by_cases hdd : hd = "default_persona".toList
          · rw [if_pos hdd] at h
            cases h
          · rw [if_neg hdd] at h
            cases h
  · intro h
    unfold applySection
    rw [h]

theorem parseSections_eq_none_iff (m : List (List Char)) :
    ∀ st : PromptConfig, parseSections st m = none ↔ ∃ s ∈ m, ']' ∉ s := by
  induction m with
  | nil =>
    intro st
    simp [parseSections]
  | cons s ss ih =>
    intro st
    rw [parseSections_cons]
    cases ha : applySection st s with
    | none =>
      constructor
      · intro _
        exact ⟨s, List.mem_cons_self s ss, (applySection_eq_none_iff st s).mp ha⟩
      · intro _
        rfl
    | some st' =>
      constructor
      · intro h
        rcases (ih st').mp h with ⟨t, ht, hnc⟩
        exact ⟨t, List.mem_cons_of_mem s ht, hnc⟩
      · rintro ⟨t, ht, hnc⟩
        rcases List.mem_cons.mp ht with rfl | ht'
        · exfalso
          have hn : applySection st t = none := (applySection_eq_none_iff st t).mpr hnc
          rw [hn] at ha
          cases ha
        · exact (ih st').mpr ⟨t, ht', hnc⟩

theorem parseSections_preserve_sys (m : List (List Char)) :
    ∀ st cfg : PromptConfig,
      (∀ s ∈ m, headerOf s ≠ some ("system_prompt".toList)) →
      parseSections st m = some cfg → cfg.system_prompt = st.system_prompt := by
  induction m with
  | nil =>
    intro st cfg _ h
    cases h
    rfl
  | cons s ss ih =>
    intro st cfg hh h
    rw [parseSections_cons] at h
    cases ha : applySection st s with
    | none => rw [ha] at h; cases h
    | some st' =>
      rw [ha] at h
      rw [ih st' cfg (fun t ht => hh t (List.mem_cons_of_mem s ht)) h]
      exact applySection_preserve_sys st st' s ha (hh s (List.mem_cons_self s ss))

theorem parseSections_preserve_default (m : List (List Char)) :
    ∀ st cfg : PromptConfig,
      (∀ s ∈ m, headerOf s ≠ some ("default_persona".toList)) →
      parseSections st m = some cfg → cfg.default_persona = st.default_persona := by
  induction m with
  | nil =>
    intro st cfg _ h
    cases h
    rfl
  | cons s ss ih =>
    intro st cfg hh h
    rw [parseSections_cons] at h
    cases ha : applySection st s with
    | none => rw [ha] at h; cases h
    | some st' =>
      rw [ha] at h
      rw [ih st' cfg (fun t ht => hh t (List.mem_cons_of_mem s ht)) h]
      exact applySection_preserve_default st st' s ha (hh s (List.mem_cons_self s ss))

theorem parseSections_preserve_persona (m : List (List Char)) :
    ∀ (st cfg : PromptConfig) (u : List Char),
      (∀ s ∈ m, headerOf s ≠ some ("persona:".toList ++ u)) →
      parseSections st m = some cfg → dictGet cfg.personas u = dictGet st.personas u := by
  induction m with
  | nil =>
    intro st cfg u _ h
    cases h
    rfl
  | cons s ss ih =>
    intro st cfg u hh h
    rw [parseSections_cons] at h
    cases ha : applySection st s with
    | none => rw [ha] at h; cases h
    | some st' =>
      rw [ha] at h
      rw [ih st' cfg u (fun t ht => hh t (List.mem_cons_of_mem s ht)) h]
      exact applySection_preserve_persona st st' s u ha (hh s (List.mem_cons_self s ss))

/-! ## Claims about the prompt-config loader -/

/-- Claim C4, as stated, is false on the code: a bracketed header with
no matching closing bracket does not make the parser return normally —
the two-way unpacking raises ValueError (modelled as `none`). -/
theorem claim_C4_counterexample :
    load_prompt_config_from_txt ("[oops".toList) = none := rfl

/-- Claim C4 amended: content before the first bracketed header is
indeed ignored — it contributes nothing to the result — but a section
whose fragment lacks a closing bracket is not ignored: the parser
raises exactly when some fragment after an opening bracket contains no
`]`. -/
theorem claim_C4_amended :
    (∀ pre rest : List Char, '[' ∉ pre →
      load_prompt_config_from_txt (pre ++ rest) = load_prompt_config_from_txt rest) ∧
    (∀ content : List Char,
      load_prompt_config_from_txt content = none ↔
        ∃ s ∈ (splitOnChar '[' content).drop 1, ']' ∉ s) := by
  constructor
  · intro pre rest h
    unfold load_prompt_config_from_txt
    rw [splitOnChar_append_left '[' pre rest h, modifyHead_drop_one]
  · intro content
    unfold load_prompt_config_from_txt
    exact parseSections_eq_none_iff _ _

/-- Claim C4 amended, instantiated: a junk preamble is dropped, and an
unterminated header makes the parse fail. -/
theorem claim_C4_witness :
    load_prompt_config_from_txt ("junk ".toList ++ "[system_prompt]A".toList) =
      load_prompt_config_from_txt ("[system_prompt]A".toList) ∧
    (load_prompt_config_from_txt ("x[a]b[oops".toList) = none ↔
      ∃ s ∈ (splitOnChar '[' ("x[a]b[oops".toList)).drop 1, ']' ∉ s) :=
  ⟨claim_C4_amended.1 _ _ (by decide), claim_C4_amended.2 _⟩

/-- Claim C9: when the same header occurs more than once, the body of
the last occurrence wins — stated for an arbitrary successful parse in
which the given occurrence is the final one for its key. -/
theorem claim_C9 :
    (∀ (l m : List (List Char)) (b : List Char) (st cfg : PromptConfig),
      (∀ s ∈ m, headerOf s ≠ some ("system_prompt".toList)) →
      parseSections st (l ++ ("system_prompt".toList ++ ']' :: b) :: m) = some cfg →
      cfg.system_prompt = trimL b) ∧
    (∀ (l m : List (List Char)) (u b : List Char) (st cfg : PromptConfig),
      ']' ∉ u →
      (∀ s ∈ m, headerOf s ≠ some ("persona:".toList ++ u)) →
      parseSections st (l ++ ("persona:".toList ++ u ++ ']' :: b) :: m) = some cfg →
      dictGet cfg.personas u = some (trimL b)) ∧
    (∀ (l m : List (List Char)) (b : List Char) (st cfg : PromptConfig),
      (∀ s ∈ m, headerOf s ≠ some ("default_persona".toList)) →
      parseSections st (l ++ ("default_persona".toList ++ ']' :: b) :: m) = some cfg →
      cfg.default_persona = trimL b) := by
  refine ⟨?_, ?_, ?_⟩
  · intro l m b st cfg hh h
    rw [parseSections_append] at h
    cases hl : parseSections st l with
    | none => rw [hl] at h; cases h
    | some st1 =>
      rw [hl] at h
      have h2 : parseSections st1 (("system_prompt".toList ++ ']' :: b) :: m) = some cfg := h
      rw [parseSections_cons, applySection_sys st1 b] at h2
      rw [parseSections_preserve_sys m _ cfg hh h2]
  · intro l m u b st cfg hu hh h
    rw [parseSections_append] at h
    cases hl : parseSections st l with
    | none => rw [hl] at h; cases h
    | some st1 =>
      rw [hl] at h
      have h2 : parseSections st1 (("persona:".toList ++ u ++ ']' :: b) :: m) = some cfg := h
      rw [parseSections_cons, applySection_persona st1 u b hu] at h2
      rw [parseSections_preserve_persona m _ cfg u hh h2]
      exact dictGet_dictSet_self st1.personas u (trimL b)
  · intro l m b st cfg hh h
    rw [parseSections_append] at h
    cases hl : parseSections st l with
    | none => rw [hl] at h; cases h
    | some st1 =>
      rw [hl] at h
      have h2 : parseSections st1 (("default_persona".toList ++ ']' :: b) :: m) = some cfg := h
      rw [parseSections_cons, applySection_default st1 b] at h2
      rw [parseSections_preserve_default m _ cfg hh h2]

/-- Claim C9, instantiated at a configuration text in which every
header occurs twice: the second bodies win. -/
theorem claim_C9_witness :
    (PromptConfig.mk "new".toList [("bob".toList, "B2".toList)] "d2".toList).system_prompt =
      trimL ("new".toList) ∧
    dictGet (PromptConfig.mk "new".toList [("bob".toList, "B2".toList)] "d2".toList).personas
      ("bob".toList) = some (trimL ("B2".toList)) ∧
    (PromptConfig.mk "new".toList [("bob".toList, "B2".toList)] "d2".toList).default_persona =
      trimL ("d2".toList) := by
  refine ⟨?_, ?_, ?_⟩
  · exact claim_C9.1 ["system_prompt]old".toList]
      ["persona:bob]B1".toList, "persona:bob]B2".toList, "default_persona]d1".toList,
        "default_persona]d2".toList]
      ("new".toList) ⟨[], [], []⟩ _ (by decide) (by decide)
  · exact claim_C9.2.1 ["system_prompt]old".toList, "system_prompt]new".toList,
        "persona:bob]B1".toList]
      ["default_persona]d1".toList, "default_persona]d2".toList]
      ("bob".toList) ("B2".toList) ⟨[], [], []⟩ _ (by decide) (by decide) (by decide)
  · exact claim_C9.2.2 ["system_prompt]old".toList, "system_prompt]new".toList,
        "persona:bob]B1".toList, "persona:bob]B2".toList, "default_persona]d1".toList]
      [] ("d2".toList) ⟨[], [], []⟩ _ (by decide) (by decide)

end TelegramAgent
